import Mathlib

/-!
Verification of the sysmon plugins (plugins/cpuinfo.py and plugins/meminfo.py).

The Python strings manipulated by the plugins are modelled as lists of
characters (`PyStr`).  Fallible Python operations (indexing that can raise
IndexError, int() that can raise ValueError, division that can raise
ZeroDivisionError) are modelled with `Option`: `none` is an uncaught
exception.  Python float arithmetic on the small tick/byte quantities
involved is modelled exactly by rational arithmetic, and `round(x, 1)` by
decimal round-half-to-even on rationals (`pyRound1`).
-/

set_option autoImplicit false

abbrev PyStr := List Char

/-- Value of a list of decimal digit characters, most significant first. -/
def digitsVal (cs : PyStr) : ℕ :=
  cs.foldl (fun a c => a * 10 + (c.toNat - 48)) 0

/-- Python `int(s)` on the plain decimal tokens occurring in this program:
an optional sign followed by at least one digit; any other shape raises
ValueError, modelled as `none`. -/
def pyInt? (s : PyStr) : Option ℤ :=
  match s with
  | [] => none
  | '-' :: rest =>
      if rest.isEmpty then none
      else if rest.all (fun c => c.isDigit) then some (-(digitsVal rest : ℤ)) else none
  | '+' :: rest =>
      if rest.isEmpty then none
      else if rest.all (fun c => c.isDigit) then some ((digitsVal rest : ℤ)) else none
  | _ =>
      if s.all (fun c => c.isDigit) then some ((digitsVal s : ℤ)) else none

/-- Python list indexing `l[i]` for non-negative `i`; `none` is IndexError. -/
def nthTok? : List PyStr → ℕ → Option PyStr
  | [], _ => none
  | t :: _, 0 => some t
  | _ :: ts, n + 1 => nthTok? ts n

/-- `int(stats[i])`: index then convert, either step may raise. -/
def tokInt? (toks : List PyStr) (i : ℕ) : Option ℤ :=
  (nthTok? toks i).bind pyInt?

/-- `list(map(int, toks))`, raising (= `none`) if any token is malformed.
Models the `sum(map(int, old_stats[1:]))` conversions in `cpu_usage`. -/
def parseAll : List PyStr → Option (List ℤ)
  | [] => some []
  | s :: rest =>
      match pyInt? s, parseAll rest with
      | some n, some l => some (n :: l)
      | _, _ => none

/-- `int(stats[1]) + int(stats[2]) + int(stats[3]) + int(stats[6]) + int(stats[7])`,
the busy-tick sum used for both `previous_data` and `current_data` in
`cpu_usage` (cpuinfo.py lines 198-204 and 211-217). -/
def sampleBusy? (toks : List PyStr) : Option ℤ :=
  match tokInt? toks 1, tokInt? toks 2, tokInt? toks 3, tokInt? toks 6, tokInt? toks 7 with
  | some a, some b, some c, some d, some e => some (a + b + c + d + e)
  | _, _, _, _, _ => none

/-- Round half to even to an integer, on rationals.  `Rat.floor` is used
instead of `Int.floor` so the definition evaluates by kernel reduction. -/
def rhe (q : ℚ) : ℤ :=
  if q - Rat.floor q < 1/2 then Rat.floor q
  else if 1/2 < q - Rat.floor q then Rat.floor q + 1
  else if Rat.floor q % 2 = 0 then Rat.floor q else Rat.floor q + 1

/-- Python `round(x, 1)`: round to one decimal place, ties to even. -/
def pyRound1 (q : ℚ) : ℚ := (rhe (10 * q) : ℚ) / 10

/-- The two possible non-exceptional results of `cpu_usage()`:
the percentage string `str(abs(round(..., 1))) + "%"` (carrying its numeric
value), or the bare int `0` returned when ZeroDivisionError is caught. -/
inductive UsageResult where
  | pct (q : ℚ)
  | zero
deriving DecidableEq

/-- Core of `cpu_usage()` (cpuinfo.py lines 196-230), as a function of the
already-split previous snapshot tokens and current `/proc/stat` tokens.
`none` models an uncaught IndexError/ValueError while parsing; the
`total = 0` branch models the caught ZeroDivisionError returning `0`. -/
def cpuUsageResult? (oldStats newStats : List PyStr) : Option UsageResult :=
  match sampleBusy? oldStats, sampleBusy? newStats,
        parseAll (oldStats.drop 1), parseAll (newStats.drop 1) with
  | some previousData, some currentData, some oldTail, some newTail =>
      let total : ℤ := oldTail.sum - newTail.sum
      if total = 0 then some UsageResult.zero
      else some (UsageResult.pct
        |pyRound1 (100 * (((previousData : ℚ) - (currentData : ℚ)) / (total : ℚ)))|)
  | _, _, _, _ => none

/- ### Splitting and joining (Python `str.split(sep)` / `sep.join`) -/

def splitAuxC (sep : Char) : List Char → List Char → List PyStr
  | [], acc => [acc.reverse]
  | c :: rest, acc =>
      if c = sep then acc.reverse :: splitAuxC sep rest []
      else splitAuxC sep rest (c :: acc)

/-- Python `s.split(sep)` for a one-character separator (empty parts kept). -/
def splitOnChar (sep : Char) (s : PyStr) : List PyStr := splitAuxC sep s []

/-- Python `sep.join(parts)` for a one-character separator. -/
def joinSep (sep : Char) : List PyStr → PyStr
  | [] => []
  | t :: ts =>
      match ts with
      | [] => t
      | _ :: _ => t ++ sep :: joinSep sep ts

/-- The line written by `cpu_usage` as the new snapshot:
`".".join(new_stats)` (cpuinfo.py line 222). -/
def saveLine (toks : List PyStr) : PyStr := joinSep '.' toks

/-- Reading the snapshot back: `readline().split(".")` (cpuinfo.py line 197). -/
def loadStats (line : PyStr) : List PyStr := splitOnChar '.' line

/-- The seed snapshot written on the first-ever run (cpuinfo.py line 194). -/
def SEED : String := "cpu.758102.17.259220.2395399.122421.3.1284"

/-- The baseline tokens on a first run: the seed file content split on ".". -/
def seedStats : List PyStr := loadStats SEED.toList

/- quick sanity theorems (also exercised by later claims) -/

theorem seedStats_parses :
    parseAll (seedStats.drop 1) = some [758102, 17, 259220, 2395399, 122421, 3, 1284] := by
  decide

/- ### Processing of the live /proc/stat line -/

/-- Python list-prefix test used by `pyReplace` (`pat` begins `s`). -/
def leadsWith : PyStr → PyStr → Bool
  | [], _ => true
  | _ :: _, [] => false
  | p :: ps, c :: cs => p == c && leadsWith ps cs

/-- Fuel-driven body of `pyReplace`; the fuel is the length of the subject
string, which bounds the number of scanning steps. -/
def pyReplaceFuel (pat rep : PyStr) : ℕ → PyStr → PyStr
  | 0, s => s
  | fuel + 1, s =>
      if !pat.isEmpty && leadsWith pat s then
        rep ++ pyReplaceFuel pat rep fuel (s.drop pat.length)
      else
        match s with
        | [] => []
        | c :: rest => c :: pyReplaceFuel pat rep fuel rest

/-- Python `s.replace(pat, rep)`: replace all non-overlapping occurrences,
scanning left to right (for the non-empty patterns used in this program). -/
def pyReplace (s pat rep : PyStr) : PyStr := pyReplaceFuel pat rep s.length s

/-- Python `s.strip()`: drop leading and trailing whitespace. -/
def stripWs (s : PyStr) : PyStr :=
  ((s.dropWhile Char.isWhitespace).reverse.dropWhile Char.isWhitespace).reverse

/-- Processing of the first `/proc/stat` line in `cpu_usage`
(cpuinfo.py line 209): `line.replace("cpu ", "cpu").strip().split(" ")`. -/
def parseStatLine (line : PyStr) : List PyStr :=
  splitOnChar ' ' (stripWs (pyReplace line "cpu ".toList "cpu".toList))

/-- C3: on the first-ever invocation of `cpu_usage()` the baseline is the
literal seed string `cpu.758102.17.259220.2395399.122421.3.1284`; splitting
it on "." yields exactly the token list the live-line parser would produce
for the equivalent kernel counter line, its busy-tick extraction succeeds
(summing indices 1, 2, 3, 6, 7 to 1018626), and every remaining tick
converts, so the first-run call does not fail while parsing its baseline. -/
theorem first_run_seed_baseline :
    seedStats = parseStatLine "cpu  758102 17 259220 2395399 122421 3 1284".toList ∧
    sampleBusy? seedStats = some 1018626 ∧
    parseAll (seedStats.drop 1) = some [758102, 17, 259220, 2395399, 122421, 3, 1284] := by
  refine ⟨?_, ?_, ?_⟩ <;> decide

/-- C1: whenever both counter samples parse and
`sum(old_stats[1:]) - sum(new_stats[1:])` is zero, `cpu_usage()` catches the
ZeroDivisionError and returns the int `0` (it does not raise). -/
theorem cpu_usage_zero_total_returns_zero
    (oldStats newStats : List PyStr) (po pc : ℤ) (lo ln : List ℤ)
    (hbo : sampleBusy? oldStats = some po)
    (hbn : sampleBusy? newStats = some pc)
    (hto : parseAll (oldStats.drop 1) = some lo)
    (htn : parseAll (newStats.drop 1) = some ln)
    (htotal : lo.sum - ln.sum = 0) :
    cpuUsageResult? oldStats newStats = some UsageResult.zero := by
  unfold cpuUsageResult?
  rw [hbo, hbn, hto, htn]
  simp [htotal]

/-- Witness for C1 at a concrete zero-delta pair of samples. -/
theorem cpu_usage_zero_total_returns_zero_witness :
    cpuUsageResult? (loadStats "cpu.1.2.3.4.5.6.7".toList)
      (loadStats "cpu.1.2.3.4.5.6.7".toList) = some UsageResult.zero :=
  cpu_usage_zero_total_returns_zero _ _ 19 19
    [1, 2, 3, 4, 5, 6, 7] [1, 2, 3, 4, 5, 6, 7]
    (by decide) (by decide) (by decide) (by decide) (by decide)

/- ### Snapshot round-trip (claim C7) -/

theorem splitAuxC_append_clean (sep : Char) (t : List Char) :
    ∀ (acc rest : List Char), (∀ c ∈ t, c ≠ sep) →
      splitAuxC sep (t ++ rest) acc = splitAuxC sep rest (t.reverse ++ acc) := by
  induction t with
  | nil => intro acc rest _; simp
  | cons c cs ih =>
      intro acc rest h
      have hc : c ≠ sep := h c (List.mem_cons_self c cs)
      have hcs : ∀ x ∈ cs, x ≠ sep := fun x hx => h x (List.mem_cons_of_mem c hx)
      simp only [List.cons_append, splitAuxC, if_neg hc, List.append_eq]
      rw [ih (c :: acc) rest hcs]
      simp [List.reverse_cons, List.append_assoc]

theorem splitOnChar_joinSep (sep : Char) :
    ∀ toks : List PyStr, toks ≠ [] → (∀ t ∈ toks, ∀ c ∈ t, c ≠ sep) →
      splitOnChar sep (joinSep sep toks) = toks := by
  intro toks
  induction toks with
  | nil => intro h; exact absurd rfl h
  | cons t ts ih =>
      intro _ hclean
      have ht : ∀ c ∈ t, c ≠ sep := hclean t (List.mem_cons_self t ts)
      cases ts with
      | nil =>
          show splitOnChar sep (joinSep sep [t]) = [t]
          have : joinSep sep [t] = t := rfl
          rw [this, splitOnChar]
          have := splitAuxC_append_clean sep t [] [] ht
          simpa [splitAuxC] using this
      | cons t2 ts2 =>
          have hts : t2 :: ts2 ≠ [] := by simp
          have hcl2 : ∀ u ∈ t2 :: ts2, ∀ c ∈ u, c ≠ sep :=
            fun u hu => hclean u (List.mem_cons_of_mem t hu)
          have hjoin : joinSep sep (t :: t2 :: ts2) = t ++ sep :: joinSep sep (t2 :: ts2) := rfl
          rw [splitOnChar, hjoin, splitAuxC_append_clean sep t [] _ ht]
          simp only [List.append_nil, splitAuxC, if_pos rfl, List.reverse_reverse]
          exact congrArg (t :: ·) (ih hts hcl2)

/-- Decimal digit characters. -/
def digitChar (d : ℕ) : Char :=
  match d with
  | 0 => '0' | 1 => '1' | 2 => '2' | 3 => '3' | 4 => '4'
  | 5 => '5' | 6 => '6' | 7 => '7' | 8 => '8' | _ => '9'

/-- Fuel-driven decimal rendering of a natural number (as Python `str`). -/
def natToCharsAux : ℕ → ℕ → List Char → List Char
  | 0, _, acc => acc
  | fuel + 1, n, acc =>
      if n < 10 then digitChar n :: acc
      else natToCharsAux fuel (n / 10) (digitChar (n % 10) :: acc)

/-- Python `str(n)` for a non-negative integer tick counter. -/
def natToChars (n : ℕ) : PyStr := natToCharsAux (n + 1) n []

theorem digitChar_ne_dot (d : ℕ) : digitChar d ≠ '.' := by
  unfold digitChar; split <;> decide

theorem natToCharsAux_ne_dot :
    ∀ (fuel n : ℕ) (acc : List Char), (∀ c ∈ acc, c ≠ '.') →
      ∀ c ∈ natToCharsAux fuel n acc, c ≠ '.' := by
  intro fuel
  induction fuel with
  | zero => intro n acc h; exact h
  | succ f ih =>
      intro n acc h c hc
      rw [natToCharsAux] at hc
      by_cases hn : n < 10
      · rw [if_pos hn] at hc
        rcases List.mem_cons.mp hc with h1 | h2
        · rw [h1]; exact digitChar_ne_dot n
        · exact h c h2
      · rw [if_neg hn] at hc
        refine ih (n / 10) (digitChar (n % 10) :: acc) ?_ c hc
        intro x hx
        rcases List.mem_cons.mp hx with h1 | h2
        · rw [h1]; exact digitChar_ne_dot (n % 10)
        · exact h x h2

theorem natToChars_ne_dot (n : ℕ) : ∀ c ∈ natToChars n, c ≠ '.' :=
  natToCharsAux_ne_dot (n + 1) n [] (by intro c hc; cases hc)

/-- C7: saving any counter sample (the literal token "cpu" followed by the
decimal renderings of its tick counters) to the snapshot file with
`".".join(...)` and loading it back with `readline().split(".")` yields
exactly the same tokens, hence byte-identical counters. -/
theorem snapshot_round_trip (ticks : List ℕ) :
    loadStats (saveLine ("cpu".toList :: ticks.map natToChars)) =
      "cpu".toList :: ticks.map natToChars := by
  apply splitOnChar_joinSep
  · simp
  · intro t ht c hc
    rcases List.mem_cons.mp ht with h1 | h2
    · rw [h1] at hc
      have hcpu : ∀ x ∈ "cpu".toList, x ≠ '.' := by decide
      exact hcpu c hc
    · rcases List.mem_map.mp h2 with ⟨n, _, rfl⟩
      exact natToChars_ne_dot n c hc

/- ### Bounds on the rounding primitive -/

theorem ratFloor_eq_floor (q : ℚ) : Rat.floor q = ⌊q⌋ := by
  rw [Rat.floor_def', Rat.floor_def]

theorem rhe_nonneg {q : ℚ} (h : 0 ≤ q) : 0 ≤ rhe q := by
  have hf : (0 : ℤ) ≤ ⌊q⌋ := Int.floor_nonneg.mpr h
  unfold rhe
  rw [ratFloor_eq_floor]
  split_ifs <;> omega

theorem rhe_le_of_le {q : ℚ} {B : ℤ} (h : q ≤ (B : ℚ)) : rhe q ≤ B := by
  have hfB : ⌊q⌋ ≤ B := by
    have h2 := Int.floor_le_floor h
    rwa [Int.floor_intCast] at h2
  have hstrict : ¬(q - ⌊q⌋ < 1/2) → ⌊q⌋ + 1 ≤ B := by
    intro h1
    have h1' : (1 : ℚ)/2 ≤ q - ⌊q⌋ := not_lt.mp h1
    have hq : (⌊q⌋ : ℚ) < q := by linarith
    have hqB : (⌊q⌋ : ℚ) < (B : ℚ) := lt_of_lt_of_le hq h
    have : ⌊q⌋ < B := by exact_mod_cast hqB
    omega
  unfold rhe
  rw [ratFloor_eq_floor]
  split_ifs with h1 h2 h3
  · exact hfB
  · exact hstrict h1
  · exact hfB
  · exact hstrict h1

theorem pyRound1_nonneg {q : ℚ} (h : 0 ≤ q) : 0 ≤ pyRound1 q := by
  unfold pyRound1
  have h10 : (0 : ℤ) ≤ rhe (10 * q) := rhe_nonneg (by linarith)
  have : (0 : ℚ) ≤ (rhe (10 * q) : ℚ) := by exact_mod_cast h10
  positivity

theorem pyRound1_le_100 {q : ℚ} (h : q ≤ 100) : pyRound1 q ≤ 100 := by
  unfold pyRound1
  have h10 : 10 * q ≤ ((1000 : ℤ) : ℚ) := by push_cast; linarith
  have h1000 := rhe_le_of_le h10
  have hc : (rhe (10 * q) : ℚ) ≤ 1000 := by exact_mod_cast h1000
  rw [div_le_iff₀ (by norm_num : (0 : ℚ) < 10)]
  linarith

theorem pyRound1_intCast (k : ℤ) : pyRound1 (k : ℚ) = (k : ℚ) := by
  have h10 : (10 : ℚ) * (k : ℚ) = ((10 * k : ℤ) : ℚ) := by push_cast; ring
  unfold pyRound1 rhe
  rw [ratFloor_eq_floor, h10, Int.floor_intCast, if_pos (by norm_num)]
  push_cast
  ring

/- ### Helpers for destructuring parsed samples -/

theorem parseAll_cons_inv {toks : List PyStr} {n : ℤ} {l : List ℤ}
    (h : parseAll toks = some (n :: l)) :
    ∃ s rest, toks = s :: rest ∧ pyInt? s = some n ∧ parseAll rest = some l := by
  cases toks with
  | nil => exact absurd h (by simp [parseAll])
  | cons s rest =>
      rw [parseAll] at h
      cases hs : pyInt? s with
      | none => rw [hs] at h; exact absurd h (by simp)
      | some m =>
          cases hr : parseAll rest with
          | none => rw [hs, hr] at h; exact absurd h (by simp)
          | some l2 =>
              rw [hs, hr] at h
              simp only [Option.some.injEq, List.cons.injEq] at h
              obtain ⟨hm, hl⟩ := h
              exact ⟨s, rest, rfl, by rw [hs, hm], by rw [hr, hl]⟩

theorem forall2_sum_le {l m : List ℤ} (h : List.Forall₂ (· ≤ ·) l m) :
    l.sum ≤ m.sum := by
  induction h with
  | nil => exact le_refl 0
  | cons hab _ ih => simp only [List.sum_cons]; exact add_le_add hab ih

theorem exists_cons7 {α : Type _} (l : List α) (h : 7 ≤ l.length) :
    ∃ a1 a2 a3 a4 a5 a6 a7 r, l = a1 :: a2 :: a3 :: a4 :: a5 :: a6 :: a7 :: r := by
  rcases l with _ | ⟨a1, _ | ⟨a2, _ | ⟨a3, _ | ⟨a4, _ | ⟨a5, _ | ⟨a6, _ | ⟨a7, r⟩⟩⟩⟩⟩⟩⟩
  all_goals first
    | exact ⟨_, _, _, _, _, _, _, _, rfl⟩
    | (exfalso; simp only [List.length_nil, List.length_cons] at h; omega)

/-- Bounds for the percentage expression of `cpu_usage` when the busy delta
is no larger than the total delta and the (inverted) total is negative. -/
theorem pct_abs_bounds {P C T : ℤ} (hPC : P ≤ C) (hT : T < 0) (hkey : C - P ≤ -T) :
    0 ≤ |pyRound1 (100 * (((P : ℚ) - (C : ℚ)) / (T : ℚ)))| ∧
    |pyRound1 (100 * (((P : ℚ) - (C : ℚ)) / (T : ℚ)))| ≤ 100 ∧
    ∃ k : ℤ, |pyRound1 (100 * (((P : ℚ) - (C : ℚ)) / (T : ℚ)))| = (k : ℚ) / 10 := by
  have hx : ((P : ℚ) - (C : ℚ)) ≤ 0 := by
    have h1 : (P : ℚ) ≤ (C : ℚ) := by exact_mod_cast hPC
    linarith
  have hy : ((T : ℚ)) < 0 := by exact_mod_cast hT
  have hyx : (T : ℚ) ≤ (P : ℚ) - (C : ℚ) := by
    have h2 : ((C : ℚ) - (P : ℚ)) ≤ -(T : ℚ) := by exact_mod_cast hkey
    linarith
  have h0 : 0 ≤ 100 * (((P : ℚ) - (C : ℚ)) / (T : ℚ)) :=
    mul_nonneg (by norm_num) (div_nonneg_of_nonpos hx hy.le)
  have h100 : 100 * (((P : ℚ) - (C : ℚ)) / (T : ℚ)) ≤ 100 := by
    have hd1 : ((P : ℚ) - (C : ℚ)) / (T : ℚ) ≤ 1 := div_le_one_of_ge hyx hy.le
    linarith
  have hr0 := pyRound1_nonneg h0
  have hr1 := pyRound1_le_100 h100
  refine ⟨abs_nonneg _, ?_, rhe (10 * (100 * (((P : ℚ) - (C : ℚ)) / (T : ℚ)))), ?_⟩
  · rw [abs_of_nonneg hr0]; exact hr1
  · rw [abs_of_nonneg hr0]; rfl

/-- C2: for every pair of valid counter samples (all ticks parse, at least
seven of them, component-wise monotone between previous and current) whose
`total = sum(old_stats[1:]) - sum(new_stats[1:])` is non-zero, `cpu_usage()`
returns a percentage value in the interval [0, 100], obtained as the
absolute value of the usage ratio rounded to one decimal place. -/
theorem cpu_usage_in_unit_range
    (oldStats newStats : List PyStr) (lo ln : List ℤ)
    (hto : parseAll (oldStats.drop 1) = some lo)
    (htn : parseAll (newStats.drop 1) = some ln)
    (hlen : 7 ≤ lo.length)
    (hnonneg : ∀ x ∈ lo, 0 ≤ x)
    (hmono : List.Forall₂ (· ≤ ·) lo ln)
    (htotal : lo.sum - ln.sum ≠ 0) :
    ∃ q : ℚ, cpuUsageResult? oldStats newStats = some (UsageResult.pct q) ∧
      0 ≤ q ∧ q ≤ 100 ∧ ∃ k : ℤ, q = (k : ℚ) / 10 := by
  obtain ⟨o1, o2, o3, o4, o5, o6, o7, lr, rfl⟩ := exists_cons7 lo hlen
  rcases hmono with _ | @⟨_, n1, _, ln1, hm1, hmono⟩
  rcases hmono with _ | @⟨_, n2, _, ln2, hm2, hmono⟩
  rcases hmono with _ | @⟨_, n3, _, ln3, hm3, hmono⟩
  rcases hmono with _ | @⟨_, n4, _, ln4, hm4, hmono⟩
  rcases hmono with _ | @⟨_, n5, _, ln5, hm5, hmono⟩
  rcases hmono with _ | @⟨_, n6, _, ln6, hm6, hmono⟩
  rcases hmono with _ | @⟨_, n7, _, rn, hm7, hmono⟩
  obtain ⟨s1, r1, he1, hp1, hc1⟩ := parseAll_cons_inv hto
  obtain ⟨s2, r2, he2, hp2, hc2⟩ := parseAll_cons_inv hc1
  obtain ⟨s3, r3, he3, hp3, hc3⟩ := parseAll_cons_inv hc2
  obtain ⟨s4, r4, he4, hp4, hc4⟩ := parseAll_cons_inv hc3
  obtain ⟨s5, r5, he5, hp5, hc5⟩ := parseAll_cons_inv hc4
  obtain ⟨s6, r6, he6, hp6, hc6⟩ := parseAll_cons_inv hc5
  obtain ⟨s7, r7, he7, hp7, hc7⟩ := parseAll_cons_inv hc6
  subst he7; subst he6; subst he5; subst he4; subst he3; subst he2
  obtain ⟨w1, v1, hf1, hq1, hd1⟩ := parseAll_cons_inv htn
  obtain ⟨w2, v2, hf2, hq2, hd2⟩ := parseAll_cons_inv hd1
  obtain ⟨w3, v3, hf3, hq3, hd3⟩ := parseAll_cons_inv hd2
  obtain ⟨w4, v4, hf4, hq4, hd4⟩ := parseAll_cons_inv hd3
  obtain ⟨w5, v5, hf5, hq5, hd5⟩ := parseAll_cons_inv hd4
  obtain ⟨w6, v6, hf6, hq6, hd6⟩ := parseAll_cons_inv hd5
  obtain ⟨w7, v7, hf7, hq7, hd7⟩ := parseAll_cons_inv hd6
  subst hf7; subst hf6; subst hf5; subst hf4; subst hf3; subst hf2
  rcases oldStats with _ | ⟨t0, tl⟩
  · rw [List.drop_nil] at he1; exact absurd he1 (by simp)
  rcases newStats with _ | ⟨u0, ul⟩
  · rw [List.drop_nil] at hf1; exact absurd hf1 (by simp)
  simp only [List.drop_one, List.tail_cons] at he1 hf1
  subst he1; subst hf1
  have hbo : sampleBusy? (t0 :: s1 :: s2 :: s3 :: s4 :: s5 :: s6 :: s7 :: r7)
      = some (o1 + o2 + o3 + o6 + o7) := by
    have e1 : tokInt? (t0 :: s1 :: s2 :: s3 :: s4 :: s5 :: s6 :: s7 :: r7) 1 = some o1 := by
      show pyInt? s1 = some o1; exact hp1
    have e2 : tokInt? (t0 :: s1 :: s2 :: s3 :: s4 :: s5 :: s6 :: s7 :: r7) 2 = some o2 := by
      show pyInt? s2 = some o2; exact hp2
    have e3 : tokInt? (t0 :: s1 :: s2 :: s3 :: s4 :: s5 :: s6 :: s7 :: r7) 3 = some o3 := by
      show pyInt? s3 = some o3; exact hp3
    have e6 : tokInt? (t0 :: s1 :: s2 :: s3 :: s4 :: s5 :: s6 :: s7 :: r7) 6 = some o6 := by
      show pyInt? s6 = some o6; exact hp6
    have e7 : tokInt? (t0 :: s1 :: s2 :: s3 :: s4 :: s5 :: s6 :: s7 :: r7) 7 = some o7 := by
      show pyInt? s7 = some o7; exact hp7
    unfold sampleBusy?
    rw [e1, e2, e3, e6, e7]
  have hbn : sampleBusy? (u0 :: w1 :: w2 :: w3 :: w4 :: w5 :: w6 :: w7 :: v7)
      = some (n1 + n2 + n3 + n6 + n7) := by
    have e1 : tokInt? (u0 :: w1 :: w2 :: w3 :: w4 :: w5 :: w6 :: w7 :: v7) 1 = some n1 := by
      show pyInt? w1 = some n1; exact hq1
    have e2 : tokInt? (u0 :: w1 :: w2 :: w3 :: w4 :: w5 :: w6 :: w7 :: v7) 2 = some n2 := by
      show pyInt? w2 = some n2; exact hq2
    have e3 : tokInt? (u0 :: w1 :: w2 :: w3 :: w4 :: w5 :: w6 :: w7 :: v7) 3 = some n3 := by
      show pyInt? w3 = some n3; exact hq3
    have e6 : tokInt? (u0 :: w1 :: w2 :: w3 :: w4 :: w5 :: w6 :: w7 :: v7) 6 = some n6 := by
      show pyInt? w6 = some n6; exact hq6
    have e7 : tokInt? (u0 :: w1 :: w2 :: w3 :: w4 :: w5 :: w6 :: w7 :: v7) 7 = some n7 := by
      show pyInt? w7 = some n7; exact hq7
    unfold sampleBusy?
    rw [e1, e2, e3, e6, e7]
  have hsum_lo : (o1 :: o2 :: o3 :: o4 :: o5 :: o6 :: o7 :: lr).sum
      = o1 + o2 + o3 + o4 + o5 + o6 + o7 + lr.sum := by
    simp only [List.sum_cons]; ring
  have hsum_ln : (n1 :: n2 :: n3 :: n4 :: n5 :: n6 :: n7 :: rn).sum
      = n1 + n2 + n3 + n4 + n5 + n6 + n7 + rn.sum := by
    simp only [List.sum_cons]; ring
  have hrest : lr.sum ≤ rn.sum := forall2_sum_le hmono
  have hPC : o1 + o2 + o3 + o6 + o7 ≤ n1 + n2 + n3 + n6 + n7 := by linarith
  have hT_le : (o1 :: o2 :: o3 :: o4 :: o5 :: o6 :: o7 :: lr).sum
      - (n1 :: n2 :: n3 :: n4 :: n5 :: n6 :: n7 :: rn).sum ≤ 0 := by
    rw [hsum_lo, hsum_ln]; linarith
  have hT_lt : (o1 :: o2 :: o3 :: o4 :: o5 :: o6 :: o7 :: lr).sum
      - (n1 :: n2 :: n3 :: n4 :: n5 :: n6 :: n7 :: rn).sum < 0 :=
    lt_of_le_of_ne hT_le htotal
  have hkey : (n1 + n2 + n3 + n6 + n7) - (o1 + o2 + o3 + o6 + o7)
      ≤ -((o1 :: o2 :: o3 :: o4 :: o5 :: o6 :: o7 :: lr).sum
          - (n1 :: n2 :: n3 :: n4 :: n5 :: n6 :: n7 :: rn).sum) := by
    rw [hsum_lo, hsum_ln]; linarith
  obtain ⟨hA, hB, hk⟩ := pct_abs_bounds hPC hT_lt hkey
  unfold cpuUsageResult?
  rw [hbo, hbn, hto, htn]
  dsimp only
  rw [if_neg htotal]
  exact ⟨_, rfl, hA, hB, hk⟩

/-- Witness for C2 at a concrete valid pair of samples with non-zero delta. -/
theorem cpu_usage_in_unit_range_witness :
    ∃ q : ℚ, cpuUsageResult? (loadStats "cpu.0.0.0.0.0.0.0".toList)
        (loadStats "cpu.1.0.0.0.0.0.0".toList) = some (UsageResult.pct q) ∧
      0 ≤ q ∧ q ≤ 100 ∧ ∃ k : ℤ, q = (k : ℚ) / 10 :=
  cpu_usage_in_unit_range _ _ [0, 0, 0, 0, 0, 0, 0] [1, 0, 0, 0, 0, 0, 0]
    (by decide) (by decide) (by decide) (by decide) (by decide) (by decide)

/- ### clean_cpu_model and the model-name display (claim C4) -/

/-- The replacement tokens of `clean_cpu_model` (cpuinfo.py lines 52-64),
in source order; each is replaced by the empty string. -/
def replaceStuff : List PyStr :=
  ["(R)".toList, "(TM)".toList, "(tm)".toList, "Processor".toList,
   "processor".toList, "\"AuthenticAMD\"".toList, "Chip Revision".toList,
   "Technologies, Inc".toList, "CPU".toList,
   "with Radeon HD Graphics".toList, "with Radeon Graphics".toList]

/-- Python `s.split()` with no argument: split on whitespace runs,
discarding empty parts. -/
def splitWsAux : List Char → List Char → List PyStr
  | [], acc => if acc.isEmpty then [] else [acc.reverse]
  | c :: rest, acc =>
      if c.isWhitespace then
        if acc.isEmpty then splitWsAux rest []
        else acc.reverse :: splitWsAux rest []
      else splitWsAux rest (c :: acc)

/-- Python `s.split()` (whitespace split, empties dropped). -/
def splitWs (s : PyStr) : List PyStr := splitWsAux s []

/-- Python `s.rstrip(" ")`: drop trailing space characters. -/
def rstripSpace (s : PyStr) : PyStr :=
  (s.reverse.dropWhile (fun c => c = ' ')).reverse

/-- `clean_cpu_model` (cpuinfo.py lines 49-69): apply each replacement in
order, then `" ".join(model.split()).split("@", maxsplit=1)[0].rstrip(" ")`
(the `[0]` of the @-split is everything before the first `@`). -/
def clean_cpu_model (model : PyStr) : PyStr :=
  rstripSpace
    ((joinSep ' '
        (splitWs (replaceStuff.foldl (fun acc pat => pyReplace acc pat []) model))).takeWhile
      (fun c => c ≠ '@'))

/-- The display truncation applied to model names in `get_info`
(cpuinfo.py lines 148-150): `model if len(model) < 25 else model[:22] + "..."`. -/
def modelDisplay (model : PyStr) : PyStr :=
  if model.length < 25 then model else model.take 22 ++ "...".toList

/-- C4 counterexample: on the documented input the cleaned and truncated
model name is not "Intel i7-9700K": no replacement rule removes "Core". -/
theorem clean_cpu_model_spec_output_false :
    modelDisplay (clean_cpu_model "Intel(R) Core(TM) i7-9700K CPU @ 3.60GHz".toList)
      ≠ "Intel i7-9700K".toList := by decide

/-- C4 (amended): cleaning "Intel(R) Core(TM) i7-9700K CPU @ 3.60GHz"
strips the trademark tokens, "CPU" and the "@"-suffix and collapses the
whitespace, but keeps the token "Core": the 19-character result
"Intel Core i7-9700K" is below the 25-character truncation bound and is
displayed unchanged. -/
theorem clean_cpu_model_keeps_core :
    modelDisplay (clean_cpu_model "Intel(R) Core(TM) i7-9700K CPU @ 3.60GHz".toList)
      = "Intel Core i7-9700K".toList := by decide

/- ### Native core-count adoption in get_info (claim C5) -/

/-- The native-probe core-count adoption of `get_info` (cpuinfo.py lines
96-105), starting from the defaults `cpu_cores_phys = cpu_cores_logical = 0`
of `data_dict`: the probed pair is stored only when
`phys < logical and logical != 0 and phys != 0`. -/
def getInfoCores (physProbe logProbe : ℕ) : ℕ × ℕ :=
  if physProbe < logProbe ∧ logProbe ≠ 0 ∧ physProbe ≠ 0 then (physProbe, logProbe)
  else (0, 0)

/-- C5 counterexample: the consistent probe pair (4, 4) — physical equal to
logical, both non-zero — is not adopted; the zero defaults are kept, against
the claim that every such pair is adopted. -/
theorem native_core_pair_equal_not_adopted :
    getInfoCores 4 4 = (0, 0) ∧ getInfoCores 4 4 ≠ (4, 4) := by decide

/-- C5 (amended): the probe's values are adopted exactly when physical is
strictly less than logical and physical is non-zero; a pair with physical
equal to logical (or any pair with a zero or inverted count) leaves both
stored counts at their zero defaults. -/
theorem native_core_adoption_characterization :
    (∀ p l : ℕ, p < l → p ≠ 0 → getInfoCores p l = (p, l)) ∧
    (∀ l : ℕ, getInfoCores l l = (0, 0)) ∧
    (∀ p l : ℕ, l ≤ p ∨ p = 0 ∨ l = 0 → getInfoCores p l = (0, 0)) := by
  refine ⟨?_, ?_, ?_⟩
  · intro p l hpl hp
    rw [getInfoCores, if_pos ⟨hpl, by omega, hp⟩]
  · intro l
    have h : ¬(l < l ∧ l ≠ 0 ∧ l ≠ 0) := by rintro ⟨h1, _, _⟩; exact lt_irrefl l h1
    rw [getInfoCores, if_neg h]
  · intro p l hpl
    have h : ¬(p < l ∧ l ≠ 0 ∧ p ≠ 0) := by
      rintro ⟨h1, h2, h3⟩
      rcases hpl with h4 | h4 | h4 <;> omega
    rw [getInfoCores, if_neg h]

/-- Witness for the amended C5 characterization at concrete probe pairs. -/
theorem native_core_adoption_characterization_witness :
    getInfoCores 2 4 = (2, 4) ∧ getInfoCores 3 3 = (0, 0) :=
  ⟨native_core_adoption_characterization.1 2 4 (by decide) (by decide),
   native_core_adoption_characterization.2.1 3⟩

/- ### Physical-core display fallback in main (claim C6) -/

/-- The physical-core display fallback of `main()` (cpuinfo.py lines
293-299).  When the stored physical count is 0, the SMT branch assigns
`cpu_cores_logical / 2`, but the assignment on the line after the inner
`if` is not in an `else` and unconditionally overwrites it with the logical
count, so the SMT flag never influences the displayed value. -/
def displayPhysCores (physStored logical : ℕ) (smt : Bool) : ℚ :=
  if physStored = 0 then
    let _v : ℚ := if smt then (logical : ℚ) / 2 else (physStored : ℚ)
    (logical : ℚ)
  else (physStored : ℚ)

/-- C6: with SMT active, no stored physical count and 8 logical cores, the
code displays 8 physical cores, not the `logical / 2 = 4` the claim states:
the `logical / 2` assignment is dead code. -/
theorem display_phys_cores_ignores_smt :
    displayPhysCores 0 8 true = 8 ∧ displayPhysCores 0 8 true ≠ 8 / 2 := by
  constructor
  · norm_num [displayPhysCores]
  · norm_num [displayPhysCores]

/- ### Meminfo percentages (claims C8, C9) -/

/-- Python `a / b` on integers (true division): ZeroDivisionError on a zero
denominator, modelled as `none`; otherwise the exact quotient. -/
def pyDiv? (a b : ℤ) : Option ℚ :=
  if b = 0 then none else some ((a : ℚ) / (b : ℚ))

/-- The physical-memory used percentage of `Meminfo.get_data`
(meminfo.py lines 72-100): each meminfo field is its kB value times 1024,
`phy_memory_used = round(MemTotal - MemAvailable)` (round of an int is the
int) and `phy_memory_used_percent = round((used / total) * 100, 1)`. -/
def memUsedPercent? (memTotalKB memAvailKB : ℕ) : Option ℚ :=
  (pyDiv? ((memTotalKB : ℤ) * 1024 - (memAvailKB : ℤ) * 1024)
      ((memTotalKB : ℤ) * 1024)).map (fun r => pyRound1 (r * 100))

/-- The swap slice of `Meminfo.get_data` (meminfo.py lines 102-112):
`swap_memory_used = round(SwapTotal - SwapFree)` in bytes and
`swap_memory_used_percent = round((used / total) * 100, 1)`, computed with a
plain division carrying no guard against `SwapTotal == 0`. -/
def memSwapData? (swapTotalKB swapFreeKB : ℕ) : Option (ℤ × ℚ) :=
  match pyDiv? ((swapTotalKB : ℤ) * 1024 - (swapFreeKB : ℤ) * 1024)
      ((swapTotalKB : ℤ) * 1024) with
  | none => none
  | some r =>
      some ((swapTotalKB : ℤ) * 1024 - (swapFreeKB : ℤ) * 1024, pyRound1 (r * 100))

/-- C8: with MemTotal = 16000000 kB and MemAvailable = 8000000 kB the used
memory percentage computed by `Meminfo.get_data` is exactly 50.0. -/
theorem mem_used_percent_half :
    memUsedPercent? 16000000 8000000 = some 50 := by
  have hden : (((16000000 : ℕ) : ℤ) * 1024) ≠ 0 := by norm_num
  rw [memUsedPercent?, pyDiv?, if_neg hden, Option.map_some']
  have hgen : ∀ x : ℚ, x = ((50 : ℤ) : ℚ) → some (pyRound1 x) = some (50 : ℚ) := by
    rintro x rfl
    rw [pyRound1_intCast]
    norm_num
  apply hgen
  push_cast
  norm_num

/-- C9: `Meminfo.get_data` divides by `SwapTotal` with no zero guard: with
SwapTotal = 0 kB (and SwapFree = 0 kB) the swap-percentage computation
raises ZeroDivisionError (modelled `none`) instead of returning data with
zero swap percentages; the divide-by-zero guard exists only in
`cpu_usage`'s except branch (see `cpuUsageResult?`). -/
theorem swap_percent_zero_total_raises :
    memSwapData? 0 0 = none := by decide

/- ### Temperature sensor discovery (claim C10) -/

/-- The sensor-name allowlist of `get_cpu_temp_file` (cpuinfo.py line 245). -/
def allowedTypes : List String := ["coretemp", "k10temp", "acpitz", "cpu_1_0_usr"]

/-- `get_cpu_temp_file` (cpuinfo.py lines 242-259), over an abstract listing
of hwmon directories, each given by the content of its `name` file and the
list of its `temp*_input` glob matches.  The outer `Option` distinguishes
normal termination from an exception: `some none` is the "unavailable"
sentinel `None`, `some (some f)` is a found sensor file (`glob[-1]`, the
last match), and `none` is the IndexError raised by `glob.glob(...)[-1]`
when the glob result is empty. -/
def getCpuTempFile? : List (String × List String) → Option (Option String)
  | [] => some none
  | (nm, files) :: rest =>
      if nm ∈ allowedTypes then
        match files.getLast? with
        | some f => some (some f)
        | none => none
      else getCpuTempFile? rest

/-- C10: if the first hwmon directory whose `name` is in the allowlist has
no `temp*_input` files, `get_cpu_temp_file` raises IndexError (`[-1]` on an
empty glob result) rather than returning the "unavailable" sentinel. -/
theorem temp_dir_empty_glob_raises
    (pre post : List (String × List String)) (nm : String)
    (hpre : ∀ d ∈ pre, d.1 ∉ allowedTypes)
    (hnm : nm ∈ allowedTypes) :
    getCpuTempFile? (pre ++ (nm, []) :: post) = none := by
  induction pre with
  | nil =>
      rw [List.nil_append, getCpuTempFile?, if_pos hnm]
      rfl
  | cons d rest ih =>
      obtain ⟨dn, df⟩ := d
      have hd : dn ∉ allowedTypes := hpre (dn, df) (List.mem_cons_self _ _)
      have hrest : ∀ x ∈ rest, x.1 ∉ allowedTypes :=
        fun x hx => hpre x (List.mem_cons_of_mem _ hx)
      rw [List.cons_append, getCpuTempFile?, if_neg hd]
      exact ih hrest

/-- Witness for C10: a single allowlisted directory with an empty glob. -/
theorem temp_dir_empty_glob_raises_witness :
    getCpuTempFile? [("coretemp", [])] = none :=
  temp_dir_empty_glob_raises [] [] "coretemp"
    (fun d hd => absurd hd (List.not_mem_nil d)) (by decide)
